import Mathlib

/-!
Verification development for the agentic code-review subsystem
(`reviewer.py` and `server.py`).

The Python source is shallowly embedded: pure string manipulation is
translated directly; every external effect (the `subprocess.run` git
invocations, filesystem reads via `open`, and the remote chat-completion
endpoint) is threaded as an explicit oracle function, with an inductive
result type distinguishing the exception classes that the source code
catches. A Python function that can let an exception escape is embedded
as an `Except`-valued function, where `Except.error` models the
uncaught exception propagating to the caller.
-/

set_option maxRecDepth 10000

namespace Review

/-! ### Basic character and string helpers (models of Python str methods) -/

/-- Model of the Python regex class `\s` (and of the characters stripped by
`str.strip`): space, tab, newline, carriage return, form feed, vertical tab. -/
def pySpace (c : Char) : Bool :=
  c = ' ' || c = '\t' || c = '\n' || c = '\r' || c = '\x0b' || c = '\x0c'

/-- Drop leading characters satisfying `pySpace`. -/
def dropSpaces : List Char → List Char
  | [] => []
  | c :: cs => if pySpace c then dropSpaces cs else c :: cs

/-- Model of Python `str.strip()`: remove leading and trailing whitespace. -/
def pyStrip (s : String) : String :=
  String.mk ((dropSpaces (dropSpaces s.data.reverse).reverse))

/-- Split a character list at every occurrence of `sep`, keeping empty parts,
as Python `str.split(sep)` does for a one-character separator. -/
def splitChar (sep : Char) : List Char → List (List Char)
  | [] => [[]]
  | c :: cs =>
    let r := splitChar sep cs
    if c = sep then [] :: r
    else
      match r with
      | h :: t => (c :: h) :: t
      | [] => [[c]]

/-- Model of Python `s.strip().split("\n")` as used on git name-only output. -/
def strip_split_lines (s : String) : List String :=
  (splitChar '\n' (pyStrip s).data).map String.mk

/-! ### Percent decoding (model of `urllib.parse.unquote`) -/

/-- Hexadecimal digit test, as accepted inside a `%XX` escape. -/
def isHexDigitChar (c : Char) : Bool :=
  ('0' ≤ c && c ≤ '9') || ('a' ≤ c && c ≤ 'f') || ('A' ≤ c && c ≤ 'F')

/-- Numeric value of a hexadecimal digit. -/
def hexVal (c : Char) : Nat :=
  if '0' ≤ c && c ≤ '9' then c.toNat - '0'.toNat
  else if 'a' ≤ c && c ≤ 'f' then c.toNat - 'a'.toNat + 10
  else if 'A' ≤ c && c ≤ 'F' then c.toNat - 'A'.toNat + 10
  else 0

/-- Collect the maximal leading run of `%XX` escapes as byte values, returning
the bytes and the remaining characters. -/
def pctRun : List Char → List Nat × List Char
  | '%' :: a :: b :: rest =>
    if isHexDigitChar a && isHexDigitChar b then
      let r := pctRun rest
      ((16 * hexVal a + hexVal b) :: r.1, r.2)
    else ([], '%' :: a :: b :: rest)
  | l => ([], l)

/-- Decode a byte run as UTF-8, emitting U+FFFD for invalid sequences, as
Python bytes.decode with errors set to replace does.  `fuel` is instantiated
with the run length; every step consumes at least one byte. -/
def utf8DecodeAux : Nat → List Nat → List Char
  | 0, _ => []
  | _ + 1, [] => []
  | fuel + 1, b :: rest =>
    if b < 0x80 then Char.ofNat b :: utf8DecodeAux fuel rest
    else if 0xC2 ≤ b && b ≤ 0xDF then
      match rest with
      | b2 :: r2 =>
        if 0x80 ≤ b2 && b2 ≤ 0xBF then
          Char.ofNat ((b - 0xC0) * 0x40 + (b2 - 0x80)) :: utf8DecodeAux fuel r2
        else '\uFFFD' :: utf8DecodeAux fuel (b2 :: r2)
      | [] => ['\uFFFD']
    else if 0xE0 ≤ b && b ≤ 0xEF then
      match rest with
      | b2 :: b3 :: r3 =>
        if (0x80 ≤ b2 && b2 ≤ 0xBF) && (0x80 ≤ b3 && b3 ≤ 0xBF)
            && !(b = 0xE0 && b2 < 0xA0) && !(b = 0xED && 0xA0 ≤ b2) then
          Char.ofNat ((b - 0xE0) * 0x1000 + (b2 - 0x80) * 0x40 + (b3 - 0x80)) ::
            utf8DecodeAux fuel r3
        else '\uFFFD' :: utf8DecodeAux fuel (b2 :: b3 :: r3)
      | l => '\uFFFD' :: utf8DecodeAux fuel l
    else '\uFFFD' :: utf8DecodeAux fuel rest

/-- Decode a byte list as UTF-8 with replacement on errors. -/
def utf8Decode (bs : List Nat) : List Char :=
  utf8DecodeAux bs.length bs

/-- One pass of percent decoding: literal characters are copied, runs of
`%XX` escapes are byte-decoded as UTF-8.  `fuel` bounds the recursion and is
instantiated with the input length (each step consumes at least one
character). -/
def unquoteAux : Nat → List Char → List Char
  | 0, l => l
  | _ + 1, [] => []
  | fuel + 1, '%' :: a :: b :: rest =>
    if isHexDigitChar a && isHexDigitChar b then
      let r := pctRun ('%' :: a :: b :: rest)
      utf8Decode r.1 ++ unquoteAux fuel r.2
    else '%' :: unquoteAux fuel (a :: b :: rest)
  | fuel + 1, c :: cs => c :: unquoteAux fuel cs

/-- Model of `urllib.parse.unquote` with UTF-8 encoding and replacement on
decode errors, as called by `parse_file_links` and
`process_artifact_with_links`. -/
def unquote (s : String) : String :=
  String.mk (unquoteAux s.data.length s.data)

/-! ### normalize_file_uri_path (reviewer.py lines 127-142) -/

/-- Model of the source check `len(path) > 1 and path[1] == ":"`: a Windows
drive-letter style path. -/
def isDriveStyle : List Char → Bool
  | _ :: ':' :: _ => true
  | _ => false

/-- Test whether a character list begins with a forward slash, the source
check `path.startswith("/")`. -/
def startsWithSlash : List Char → Bool
  | '/' :: _ => true
  | _ => false

/-- Embedding of `normalize_file_uri_path` (reviewer.py lines 127-142). -/
def normalize_file_uri_path (path : String) : String :=
  if isDriveStyle path.data then path
  else if startsWithSlash path.data then path
  else String.mk ('/' :: path.data)

/-! ### The two regular expressions of parse_file_links

The source scans with `re.finditer` for
`render_diffs\s*\(\s*file:///([^)]+)\s*\)` and
`\[([^\]]*)\]\(file:///([^)]+)\)`.  Both patterns are deterministic:
a greedy negated class running to the first closing character followed by
that closing character allows no backtracking alternatives, so a match
attempt at a position either fails or captures the text up to the first
closing delimiter.  The scanners below implement exactly that, advancing
one character on failure and past the match on success, which is the
`re.finditer` leftmost, non-overlapping semantics. -/

/-- Match a literal character sequence, returning the remainder. -/
def stripLit : List Char → List Char → Option (List Char)
  | [], l => some l
  | p :: ps, c :: cs => if c = p then stripLit ps cs else none
  | _ :: _, [] => none

/-- Split at the first occurrence of `stop`, returning the characters before
it and the characters after it; `none` when `stop` does not occur. -/
def splitAtChar (stop : Char) : List Char → Option (List Char × List Char)
  | [] => none
  | c :: cs =>
    if c = stop then some ([], cs)
    else
      match splitAtChar stop cs with
      | some (pre, post) => some (c :: pre, post)
      | none => none

/-- Attempt to match `render_diffs\s*\(\s*file:///([^)]+)\s*\)` at the head of
the input, returning the captured group and the remainder after the match. -/
def matchRenderAt (l : List Char) : Option (String × List Char) :=
  match stripLit "render_diffs".data l with
  | none => none
  | some l1 =>
    match dropSpaces l1 with
    | '(' :: l3 =>
      match stripLit "file:///".data (dropSpaces l3) with
      | none => none
      | some l5 =>
        match splitAtChar ')' l5 with
        | some (pre, post) => if pre = [] then none else some (String.mk pre, post)
        | none => none
    | _ => none

/-- Attempt to match `\[([^\]]*)\]\(file:///([^)]+)\)` at the head of the
input, returning the captured path group and the remainder after the match. -/
def matchLinkAt (l : List Char) : Option (String × List Char) :=
  match l with
  | '[' :: l1 =>
    match splitAtChar ']' l1 with
    | none => none
    | some (_, l2) =>
      match stripLit "(file:///".data l2 with
      | none => none
      | some l3 =>
        match splitAtChar ')' l3 with
        | some (pre, post) => if pre = [] then none else some (String.mk pre, post)
        | none => none
  | _ => none

/-- Leftmost non-overlapping scan for a matcher, the `re.finditer` loop.
`fuel` is instantiated with the input length; every successful match consumes
at least one character, so the fuel never runs out early. -/
def scanAux (matchAt : List Char → Option (String × List Char)) :
    Nat → List Char → List String
  | 0, _ => []
  | _ + 1, [] => []
  | fuel + 1, c :: cs =>
    match matchAt (c :: cs) with
    | some (g, rest) => g :: scanAux matchAt fuel rest
    | none => scanAux matchAt fuel cs

/-- All captured groups of the pattern in order of occurrence. -/
def scanMatches (matchAt : List Char → Option (String × List Char))
    (l : List Char) : List String :=
  scanAux matchAt l.length l

/-- Leftmost non-overlapping substitution for a matcher, the `re.sub` loop:
unmatched characters are copied, each match is replaced by `repl` applied to
its captured group. -/
def subAux (matchAt : List Char → Option (String × List Char))
    (repl : String → String) : Nat → List Char → List Char
  | 0, l => l
  | _ + 1, [] => []
  | fuel + 1, c :: cs =>
    match matchAt (c :: cs) with
    | some (g, rest) => (repl g).data ++ subAux matchAt repl fuel rest
    | none => c :: subAux matchAt repl fuel cs

/-! ### parse_file_links (reviewer.py lines 145-176) -/

/-- Embedding of `parse_file_links` (reviewer.py lines 145-176): the first
component collects every `render_diffs(file:///...)` path, percent-decoded
and normalized; the second collects every markdown-link `[...](file:///...)`
path not already present in the first, in order and without further
deduplication, exactly as the source loop appends. -/
def parse_file_links (content : String) : List String × List String :=
  let diff_files :=
    (scanMatches matchRenderAt content.data).map
      (fun p => normalize_file_uri_path (unquote p))
  let read_files :=
    (scanMatches matchLinkAt content.data).foldl
      (fun acc q =>
        let full_path := normalize_file_uri_path (unquote q)
        if diff_files.contains full_path then acc else acc ++ [full_path]) []
  (diff_files, read_files)


/-! ### Oracles for subprocess and filesystem effects

A `subprocess.run(args, ..., check=True)` call is modelled as a function
from the argument vector to a `RunResult`; the constructors correspond to
the exception classes the source distinguishes: normal completion,
`subprocess.CalledProcessError` (non-zero exit), `FileNotFoundError`
(missing binary), and any other exception.  A file read via `open` is
modelled likewise by `ReadResult`. -/

/-- Outcome of a `subprocess.run` invocation. -/
inductive RunResult where
  | ok (stdout : String)
  | calledProcessError (stderr : String)
  | fileNotFound (msg : String)
  | otherError (msg : String)
  deriving DecidableEq

/-- Outcome of reading a file with `open(...).read()`:  success,
`FileNotFoundError`, or any other exception (permission denied, a
directory path, a decode error, ...). -/
inductive ReadResult where
  | ok (content : String)
  | notFound
  | error (msg : String)
  deriving DecidableEq

/-! ### VersionControlAdapter (reviewer.py lines 25-98, 179-216) -/

/-- Embedding of `EXCLUDE_PATTERNS` (reviewer.py lines 25-37). -/
def EXCLUDE_PATTERNS : List String :=
  ["*.lock", "*.json", "*.svg", "*.png", "*.jpg", "*.woff", "*.woff2",
   "uv.lock", "package-lock.json", "yarn.lock", "pnpm-lock.yaml"]

/-- Argument vector built by `get_git_diff` (reviewer.py lines 52-62): the
target selection followed by one `--`/`:!pattern` pair per exclusion
pattern, appended two-at-a-time by the extend loop of the source. -/
def git_diff_args (target : String) : List String :=
  (if target = "staged" then ["git", "diff", "--staged"]
   else if target = "unstaged" then ["git", "diff"]
   else ["git", "diff", target])
  ++ EXCLUDE_PATTERNS.foldl (fun acc pattern => acc ++ ["--", ":!" ++ pattern]) []

/-- Argument vector of the staged name-only listing (reviewer.py line 79). -/
def staged_name_only_args : List String :=
  ["git", "diff", "--staged", "--name-only"]

/-- Argument vector of the unstaged name-only listing (reviewer.py line 87). -/
def unstaged_name_only_args : List String :=
  ["git", "diff", "--name-only"]

/-- Argument vector built by `get_scoped_diff` for one file
(reviewer.py lines 199-204). -/
def scoped_diff_args (target normalized : String) : List String :=
  if target = "staged" then ["git", "diff", "--staged", "--", normalized]
  else if target = "unstaged" then ["git", "diff", "--", normalized]
  else ["git", "diff", target, "--", normalized]

/-- Model of `pathlib.Path(filepath).as_posix()` on a POSIX host
(reviewer.py line 197): pure path normalization that drops empty and `.`
components and any trailing separator, keeping a leading root separator;
the empty path becomes `.`. -/
def as_posix (p : String) : String :=
  let parts := (splitChar '/' p.data).filter (fun comp => !comp.isEmpty && comp != ['.'])
  let body := String.mk (List.intercalate ['/'] parts)
  if startsWithSlash p.data then "/" ++ body
  else if parts = [] then "." else body

/-- Embedding of `get_git_diff` (reviewer.py lines 40-71).  The source
catches `CalledProcessError` and `FileNotFoundError`, turning both into
result strings; any other exception propagates, modelled by
`Except.error`. -/
def get_git_diff (run : List String → RunResult) (target : String) :
    Except String String :=
  match run (git_diff_args target) with
  | RunResult.ok out => Except.ok out
  | RunResult.calledProcessError err =>
      Except.ok ("Error running git diff: " ++ err)
  | RunResult.fileNotFound _ =>
      Except.ok "Error: git is not installed or not in PATH"
  | RunResult.otherError e => Except.error e

/-- Embedding of `get_changed_files` (reviewer.py lines 74-98).  The two
name-only listings are stripped, split on newlines, unioned as a Python
`set` (modelled by `dedup`, membership being what matters since set
iteration order is arbitrary) and filtered of empty strings.  Only
`CalledProcessError` is caught (yielding `[]`); a `FileNotFoundError` or
any other exception propagates as `Except.error`. -/
def get_changed_files (run : List String → RunResult) :
    Except String (List String) :=
  match run staged_name_only_args with
  | RunResult.calledProcessError _ => Except.ok []
  | RunResult.fileNotFound m => Except.error m
  | RunResult.otherError m => Except.error m
  | RunResult.ok staged_out =>
    match run unstaged_name_only_args with
    | RunResult.calledProcessError _ => Except.ok []
    | RunResult.fileNotFound m => Except.error m
    | RunResult.otherError m => Except.error m
    | RunResult.ok unstaged_out =>
        Except.ok
          (((strip_split_lines staged_out ++ strip_split_lines unstaged_out).dedup).filter
            (fun f => f != ""))

/-- Truncation applied by `read_context_files` (reviewer.py lines 117-118):
contents beyond 50000 characters are cut and marked. -/
def trunc_context (content : String) : String :=
  if content.data.length > 50000 then
    String.mk (content.data.take 50000) ++ "\n\n... [TRUNCATED] ..."
  else content

/-- Embedding of `read_context_files` (reviewer.py lines 101-124): each file
is appended with a header; `FileNotFoundError` and any other exception are
converted to inline notes, so the function is total. -/
def read_context_files (fs : String → ReadResult) (filepaths : List String) :
    String :=
  filepaths.foldl
    (fun context filepath =>
      match fs filepath with
      | ReadResult.ok content =>
          context ++ "\n\n--- FILE: " ++ filepath ++ " ---\n" ++ trunc_context content
      | ReadResult.notFound =>
          context ++ "\n\n(Note: Context file \x27" ++ filepath ++ "\x27 not found)\n"
      | ReadResult.error e =>
          context ++ "\n\n(Error reading \x27" ++ filepath ++ "\x27: " ++ e ++ ")\n")
    ""

/-- Per-file section built by the loop body of `get_scoped_diff`
(reviewer.py lines 194-214): zero or one section per file.  A successful
diff whose stripped output is empty appends nothing; `CalledProcessError`
appends the no-diff marker; any other exception is caught by the source as
well and appends an error marker carrying the exception text. -/
def scoped_diff_section (run : List String → RunResult) (target filepath : String) :
    List String :=
  match run (scoped_diff_args target (as_posix filepath)) with
  | RunResult.ok out =>
      if pyStrip out != "" then ["# Diff for: " ++ filepath ++ "\n" ++ out] else []
  | RunResult.calledProcessError _ => ["# No diff available for: " ++ filepath]
  | RunResult.fileNotFound m =>
      ["# Error getting diff for " ++ filepath ++ ": " ++ m]
  | RunResult.otherError m =>
      ["# Error getting diff for " ++ filepath ++ ": " ++ m]

/-- Embedding of `get_scoped_diff` (reviewer.py lines 179-216): the empty
file list returns the empty string before any subprocess runs; otherwise
the per-file sections are joined with a blank line. -/
def get_scoped_diff (run : List String → RunResult) (files : List String)
    (target : String) : String :=
  if files = [] then ""
  else
    String.intercalate "\n\n"
      (files.foldl (fun diffs f => diffs ++ scoped_diff_section run target f) [])

/-! ### ArtifactProcessor (reviewer.py lines 219-273) -/

/-- Embedding of the `replace_render_diff` closure (reviewer.py lines
246-253): a single-file scoped diff is fenced, or a no-changes note is
produced when it is empty. -/
def replace_render_diff (run : List String → RunResult) (diff_target : String)
    (g : String) : String :=
  let full_path := normalize_file_uri_path (unquote g)
  let file_diff := get_scoped_diff run [full_path] diff_target
  if file_diff != "" then "```diff\n" ++ file_diff ++ "\n```"
  else "(No changes in " ++ full_path ++ ")"

/-- Truncation applied to linked files (reviewer.py lines 265-266). -/
def trunc_linked (content : String) : String :=
  if content.data.length > 10000 then
    String.mk (content.data.take 10000) ++ "\n... [TRUNCATED]"
  else content

/-- Embedding of `process_artifact_with_links` (reviewer.py lines 219-273).
The source catches only `FileNotFoundError` around the artifact read, so
any other exception there propagates (`Except.error`); everything after
the read is total: diff failures become inline markers and unreadable
linked files are skipped by a bare `except Exception: pass`. -/
def process_artifact_with_links (fs : String → ReadResult)
    (run : List String → RunResult) (filepath diff_target : String) :
    Except String (String × String) :=
  match fs filepath with
  | ReadResult.notFound =>
      Except.ok ("(Artifact not found: " ++ filepath ++ ")", "")
  | ReadResult.error e => Except.error e
  | ReadResult.ok content =>
    let pf := parse_file_links content
    let scoped_diff := get_scoped_diff run pf.1 diff_target
    let processed :=
      String.mk
        (subAux matchRenderAt (replace_render_diff run diff_target)
          content.data.length content.data)
    let linked_context :=
      (pf.2.take 5).foldl
        (fun acc read_path =>
          match fs read_path with
          | ReadResult.ok file_content =>
              acc ++ "\n\n--- LINKED FILE: " ++ read_path ++ " ---\n" ++
                trunc_linked file_content
          | _ => acc)
        ""
    Except.ok (processed ++ linked_context, scoped_diff)

/-! ### ToolRegistry and dispatcher (reviewer.py lines 335-403) -/

/-- The names of the three tools declared in `REVIEWER_TOOLS`
(reviewer.py lines 335-384); the schemas themselves carry no control
flow, so only the registered names are embedded. -/
def REVIEWER_TOOLS : List String :=
  ["get_uncommitted_changes", "read_files", "list_changed_files"]

/-- JSON argument values as the tools consume them: a string or an array
of strings, matching the declared parameter schemas. -/
inductive JVal where
  | s (v : String)
  | arr (v : List String)
  deriving DecidableEq

/-- Parsed tool-call arguments: the dictionary produced by `json.loads`. -/
abbrev Args := List (String × JVal)

/-- Model of `arguments.get(key, default)` for a string-valued argument. -/
def getStrArg (args : Args) (key dflt : String) : String :=
  match args.lookup key with
  | some (JVal.s v) => v
  | _ => dflt

/-- Model of `arguments.get(key, [])` for an array-valued argument. -/
def getArrArg (args : Args) (key : String) : List String :=
  match args.lookup key with
  | some (JVal.arr v) => v
  | _ => []

/-- Embedding of `_execute_tool` (reviewer.py lines 387-403).  Four names
are handled: the three registered tools plus the backwards-compatibility
name `read_file`; every other name yields the unknown-tool string.  The
result is `Except`-valued because `get_git_diff` and `get_changed_files`
can let exceptions escape. -/
def execute_tool (run : List String → RunResult) (fs : String → ReadResult)
    (name : String) (arguments : Args) : Except String String :=
  if name = "get_uncommitted_changes" then
    get_git_diff run (getStrArg arguments "target" "staged")
  else if name = "read_files" then
    Except.ok (read_context_files fs (getArrArg arguments "paths"))
  else if name = "read_file" then
    Except.ok (read_context_files fs [getStrArg arguments "path" ""])
  else if name = "list_changed_files" then
    match get_changed_files run with
    | Except.ok files =>
        Except.ok
          (if files = [] then "No changed files found."
           else String.intercalate "\n" files)
    | Except.error e => Except.error e
  else Except.ok ("Unknown tool: " ++ name)


/-! ### ReviewOrchestrator (reviewer.py lines 406-590) -/

/-- A tool call produced by the remote model.  `arguments` is the result of
`json.loads` on the raw argument string; `none` models a string that fails
to parse, which the source replaces by the empty dictionary. -/
structure ToolCall where
  id : String
  name : String
  arguments : Option Args
  deriving DecidableEq

/-- A chat-completion response message: optional text content and the list
of requested tool calls (the empty list models both `None` and `[]`, which
the source treats identically via `if not message.tool_calls`). -/
structure ModelResponse where
  content : Option String
  tool_calls : List ToolCall
  deriving DecidableEq

/-- A transcript message, tagged as the source tags the `role` field. -/
inductive Message where
  | system (content : String)
  | user (content : String)
  | assistant (resp : ModelResponse)
  | tool (tool_call_id : String) (content : String)
  deriving DecidableEq

/-- The remote chat endpoint: from the transcript to a response, or an
exception (`Except.error`), which the source converts to an error string. -/
abbrev ChatFn := List Message → Except String ModelResponse

/-- The process environment of one review session: the `ZHIPU_API_KEY`
variable, the `MAX_REVIEW_ITERATIONS` cap (default 10), and the three
effect oracles. -/
structure Env where
  api_key : Option String
  max_iterations : Nat
  chat : ChatFn
  run : List String → RunResult
  fs : String → ReadResult

/-- Model of `message.content or "No review generated."` (reviewer.py
line 563): Python `or` falls through on `None` and on the empty string. -/
def or_default (content : Option String) : String :=
  match content with
  | some c => if c = "" then "No review generated." else c
  | none => "No review generated."

/-- Embedding of the inner tool-dispatch loop (reviewer.py lines 569-588):
each requested call is executed in order and its result appended as a tool
message; an exception escaping `execute_tool` aborts the whole run, since
the source wraps none of this in a `try`. -/
def run_tool_calls (run : List String → RunResult) (fs : String → ReadResult) :
    List ToolCall → List Message → Except String (List Message)
  | [], msgs => Except.ok msgs
  | tc :: rest, msgs =>
    match execute_tool run fs tc.name (tc.arguments.getD []) with
    | Except.error e => Except.error e
    | Except.ok result =>
        run_tool_calls run fs rest (msgs ++ [Message.tool tc.id result])

/-- Embedding of the bounded loop `for iteration in range(max_iterations)`
(reviewer.py lines 545-590), instrumented with the number of
chat-completion calls performed (the second component).  Exhausting the
bound returns the fixed iteration-exceeded string; a transport exception
returns an error string; a response without tool calls returns its content
through `or_default`. -/
def review_loop (chat : ChatFn) (run : List String → RunResult)
    (fs : String → ReadResult) : Nat → List Message → Except String String × Nat
  | 0, _ =>
      (Except.ok "Error: Maximum iterations reached without completing review.", 0)
  | n + 1, messages =>
    match chat messages with
    | Except.error e => (Except.ok ("Error calling GLM-4.7 API: " ++ e), 1)
    | Except.ok message =>
      if message.tool_calls = [] then (Except.ok (or_default message.content), 1)
      else
        match run_tool_calls run fs message.tool_calls
            (messages ++ [Message.assistant message]) with
        | Except.error e => (Except.error e, 1)
        | Except.ok msgs2 =>
          let r := review_loop chat run fs n msgs2
          (r.1, r.2 + 1)

/-- The default artifact names (reviewer.py lines 439-443). -/
def default_artifacts : List String :=
  ["implementation_plan.md", "task.md", "walkthrough.md"]

/-- Embedding of the artifact-loading loop (reviewer.py lines 450-472),
accumulating the rendered artifact context and the concatenation of the
diff-directive files across artifacts, in order.  A missing artifact is
skipped silently; any other exception is caught and logged after the
diff files of the current artifact were already collected, which the
error branch reproduces. -/
def load_artifacts (fs : String → ReadResult) (run : List String → RunResult)
    (diff_target : String) : List String → String × List String
  | [] => ("", [])
  | artifact :: rest =>
    match fs artifact with
    | ReadResult.ok content =>
      let pf := parse_file_links content
      let tail := load_artifacts fs run diff_target rest
      match process_artifact_with_links fs run artifact diff_target with
      | Except.ok pr =>
          ("\n\n--- ARTIFACT: " ++ artifact ++ " ---\n" ++ pr.1 ++ tail.1,
           pf.1 ++ tail.2)
      | Except.error _ => (tail.1, pf.1 ++ tail.2)
    | _ => load_artifacts fs run diff_target rest

/-- Embedding of the file-selection precedence (reviewer.py lines 474-484):
a truthy (present and non-empty) focus list wins, then the artifact-derived
diff files, then nothing. -/
def files_to_diff (focus_files : Option (List String))
    (all_diff_files : List String) : Option (List String) :=
  match focus_files with
  | some ff =>
      if ff ≠ [] then some ff
      else if all_diff_files ≠ [] then some all_diff_files else none
  | none => if all_diff_files ≠ [] then some all_diff_files else none

/-- The pre-fetched diff (reviewer.py lines 487-492): computed only when a
file selection was made, otherwise the empty string with no subprocess. -/
def precomputed_diff (run : List String → RunResult)
    (ftd : Option (List String)) (diff_target : String) : String :=
  match ftd with
  | some fls => get_scoped_diff run fls diff_target
  | none => ""

/-- The system prompt of the agentic review (reviewer.py lines 494-510). -/
def system_prompt_agentic : String :=
  "You are a Senior Code Reviewer with access to tools.\n\nYour job is to review code changes. You have access to these tools:\n- get_uncommitted_changes: Get git diffs (staged, unstaged, or vs specific refs)\n- read_files: Read multiple source files at once (efficient - use this to batch file reads)\n- list_changed_files: See which files have been modified\n\nThe user will provide you with context about what to review. Use your tools\nto gather any additional information you need. Be efficient - batch file reads together.\n\nREVIEW FOCUS:\n1. Does the code match the stated intent (if provided)?\n2. Are there logic errors, bugs, or security risks?\n3. Any missed requirements?\n4. Does it follow best practices?\n\nBe concise but thorough. Ignore minor style issues."

/-- Embedding of the initial user-message construction (reviewer.py lines
512-531): the truthy sections joined by blank lines, or the fallback
instruction when no section is present. -/
def build_user_message (task_description artifact_context : String)
    (changed_files : List String) (diff_content diff_target : String) : String :=
  let sections : List String :=
    (if task_description ≠ "" then
       ["## Task Description\n" ++ task_description] else [])
    ++ (if pyStrip artifact_context ≠ "" then
          ["## Project Artifacts\n" ++ artifact_context] else [])
    ++ (if changed_files ≠ [] then
          ["## Files to Review\n" ++ String.intercalate "\n" changed_files] else [])
    ++ (if pyStrip diff_content ≠ "" then
          ["## Git Diff (" ++ diff_target ++ ")\n```diff\n" ++ diff_content ++ "\n```"]
        else [])
  if sections ≠ [] then
    "Please review the following:\n\n" ++ String.intercalate "\n\n" sections ++
      "\n\n---\nProvide a thorough code review. Use your tools if you need more information."
  else
    "Please review the current code changes. Use list_changed_files and get_uncommitted_changes to see what\x27s been modified."

/-- The initial transcript of a session (reviewer.py lines 438-536): system
prompt plus the user message assembled from artifacts, file selection and
pre-fetched diff. -/
def initial_messages (env : Env) (diff_target : String)
    (context_files focus_files : Option (List String))
    (task_description : String) : List Message :=
  let la := load_artifacts env.fs env.run diff_target
    (default_artifacts ++ context_files.getD [])
  let ftd := files_to_diff focus_files la.2
  let diff_content := precomputed_diff env.run ftd diff_target
  let changed_files := ftd.getD []
  [Message.system system_prompt_agentic,
   Message.user (build_user_message task_description la.1 changed_files
     diff_content diff_target)]

/-- Embedding of `run_agentic_review` (reviewer.py lines 406-590),
instrumented with the number of chat-completion calls.  A missing API key
short-circuits with the config-error string and zero calls. -/
def run_agentic_review_instr (env : Env) (diff_target : String)
    (context_files focus_files : Option (List String))
    (task_description : String) : Except String String × Nat :=
  match env.api_key with
  | none => (Except.ok "Error: ZHIPU_API_KEY environment variable is not set.", 0)
  | some _ =>
      review_loop env.chat env.run env.fs env.max_iterations
        (initial_messages env diff_target context_files focus_files task_description)

/-- The result of `run_agentic_review`, dropping the instrumentation. -/
def run_agentic_review (env : Env) (diff_target : String)
    (context_files focus_files : Option (List String))
    (task_description : String) : Except String String :=
  (run_agentic_review_instr env diff_target context_files focus_files
    task_description).1

/-! ### The exposed entry point (server.py lines 30-68)

Python binds keyword arguments by name: a call with a keyword that matches
no parameter of the callee raises `TypeError`.  The parameter list of
`run_agentic_review` (reviewer.py lines 406-411) and the keyword set passed
by `review_with_context` (server.py lines 60-68) are embedded as data, and
the binding check as the predicate Python applies. -/

/-- The parameter names of `run_agentic_review` (reviewer.py lines 406-411). -/
def run_agentic_review_params : List String :=
  ["diff_target", "context_files", "focus_files", "task_description"]

/-- The keyword arguments `review_with_context` passes to
`reviewer.run_agentic_review` (server.py lines 60-68). -/
def review_with_context_call_keywords : List String :=
  ["working_dir", "diff_target", "context_files", "focus_files", "task_description"]

/-- Python keyword binding succeeds exactly when every supplied keyword
names a parameter of the callee (none of these parameters is
positional-only and there is no `**kwargs` catch-all). -/
def kwargs_accepted (params kwargs : List String) : Bool :=
  kwargs.all (fun k => params.contains k)

/-! ### Specification-side definition for the link resolver -/

/-- Statement of the LinkResolver contract in the spec, written from its
words: `diffFiles` is every render-directive path percent-decoded and
normalized; `readFiles` is exactly the markdown-link paths not already
present in `diffFiles`, in first-occurrence order (the source keeps
duplicates among the links, which the corrected claim records). -/
def parse_file_links_spec (content : String) : List String × List String :=
  let diff_files :=
    (scanMatches matchRenderAt content.data).map
      (fun p => normalize_file_uri_path (unquote p))
  let read_files :=
    ((scanMatches matchLinkAt content.data).map
      (fun p => normalize_file_uri_path (unquote p))).filter
        (fun p => !(diff_files.contains p))
  (diff_files, read_files)

/-- Specification-side form of the non-empty scoped diff: one optional
section per path in order, flattened and joined by blank lines. -/
def scoped_diff_sections_spec (run : List String → RunResult) (target : String)
    (files : List String) : List String :=
  files.foldr (fun f acc => scoped_diff_section run target f ++ acc) []

/-- Specification-side form of the artifact diff-file union: the
concatenation, across readable artifacts, of each artifact document\x27s
render-directive paths. -/
def artifact_diff_union (fs : String → ReadResult) : List String → List String
  | [] => []
  | artifact :: rest =>
    (match fs artifact with
     | ReadResult.ok content => (parse_file_links content).1
     | _ => []) ++ artifact_diff_union fs rest


/-! ## Helper lemmas -/

/-- Joining an empty list of strings yields the empty string. -/
theorem intercalate_nil (s : String) : String.intercalate s [] = "" := rfl

/-- Joining a one-element list leaves the element unchanged. -/
theorem intercalate_single (s a : String) : String.intercalate s [a] = a := rfl

/-- Left folds that only append move the accumulator out front. -/
theorem foldl_append_sections (g : String → List String) :
    ∀ (l : List String) (init : List String),
      l.foldl (fun acc x => acc ++ g x) init =
        init ++ l.foldr (fun x acc => g x ++ acc) [] := by
  intro l
  induction l with
  | nil => intro init; simp
  | cons x rest ih =>
    intro init
    simp only [List.foldl_cons, List.foldr_cons]
    rw [ih, List.append_assoc]

/-- Elements of the initial accumulator survive the exclusion-appending
fold of `git_diff_args`. -/
theorem mem_foldl_exclusions_init (a : String) :
    ∀ (l : List String) (init : List String), a ∈ init →
      a ∈ l.foldl (fun acc q => acc ++ ["--", ":!" ++ q]) init := by
  intro l
  induction l with
  | nil => intro init h; exact h
  | cons q rest ih =>
    intro init h
    exact ih _ (List.mem_append_left _ h)

/-- Every configured pattern appears, negated, in the exclusion fold. -/
theorem mem_foldl_exclusions (p : String) :
    ∀ (l : List String) (init : List String), p ∈ l →
      (":!" ++ p) ∈ l.foldl (fun acc q => acc ++ ["--", ":!" ++ q]) init := by
  intro l
  induction l with
  | nil => intro init h; cases h
  | cons q rest ih =>
    intro init h
    rcases List.mem_cons.mp h with h | h
    · subst h
      simp only [List.foldl_cons]
      exact mem_foldl_exclusions_init _ _ _
        (List.mem_append_right _ (List.mem_cons_of_mem _ (List.mem_cons_self _ _)))
    · exact ih _ h

/-- A string of the form `:!pattern` starts with a colon, so it differs
from any string whose characters do not start with one. -/
theorem colon_bang_ne (p s : String) (h : ∀ cs, s.data ≠ ':' :: cs) :
    ":!" ++ p ≠ s := by
  intro he
  exact h ('!' :: p.data) (he ▸ rfl)

/-- The character list of `git` does not start with a colon. -/
theorem git_data_ne (cs : List Char) : "git".data ≠ ':' :: cs := by
  intro h
  injection h with h1 _
  exact absurd h1 (by decide)

/-- The character list of `diff` does not start with a colon. -/
theorem diff_data_ne (cs : List Char) : "diff".data ≠ ':' :: cs := by
  intro h
  injection h with h1 _
  exact absurd h1 (by decide)

/-- The character list of `--staged` does not start with a colon. -/
theorem staged_data_ne (cs : List Char) : "--staged".data ≠ ':' :: cs := by
  intro h
  injection h with h1 _
  exact absurd h1 (by decide)

/-- The character list of `--` does not start with a colon. -/
theorem dashes_data_ne (cs : List Char) : "--".data ≠ ':' :: cs := by
  intro h
  injection h with h1 _
  exact absurd h1 (by decide)

/-- The character list of `--name-only` does not start with a colon. -/
theorem name_only_data_ne (cs : List Char) : "--name-only".data ≠ ':' :: cs := by
  intro h
  injection h with h1 _
  exact absurd h1 (by decide)

/-- The `read_files` accumulation loop of `parse_file_links` is the filter
of the mapped link paths by non-membership in the diff files. -/
theorem read_files_fold_spec (dfs : List String) :
    ∀ (l : List String) (acc : List String),
      l.foldl (fun a q =>
          if dfs.contains (normalize_file_uri_path (unquote q)) then a
          else a ++ [normalize_file_uri_path (unquote q)]) acc =
        acc ++ (l.map (fun q => normalize_file_uri_path (unquote q))).filter
          (fun p => !(dfs.contains p)) := by
  intro l
  induction l with
  | nil => intro acc; simp
  | cons q rest ih =>
    intro acc
    simp only [List.foldl_cons, List.map_cons, List.filter_cons]
    cases h : dfs.contains (normalize_file_uri_path (unquote q)) with
    | true => rw [ih]; simp
    | false => rw [ih]; simp [List.append_assoc]

/-- When every tool execution returns a result string, the dispatch loop
returns a transcript. -/
theorem run_tool_calls_ok (run : List String → RunResult) (fs : String → ReadResult)
    (htools : ∀ name args, ∃ s, execute_tool run fs name args = Except.ok s) :
    ∀ (tcs : List ToolCall) (msgs : List Message),
      ∃ msgs2, run_tool_calls run fs tcs msgs = Except.ok msgs2 := by
  intro tcs
  induction tcs with
  | nil => intro msgs; exact ⟨msgs, rfl⟩
  | cons tc rest ih =>
    intro msgs
    obtain ⟨s, hs⟩ := htools tc.name (tc.arguments.getD [])
    simp only [run_tool_calls, hs]
    exact ih _

/-- A model that requests a tool every round, over tools that never raise,
drives the loop through all of its fuel to the iteration-exceeded result,
one chat call per round. -/
theorem review_loop_all_tools (chat : ChatFn) (run : List String → RunResult)
    (fs : String → ReadResult)
    (hchat : ∀ msgs, ∃ resp, chat msgs = Except.ok resp ∧ resp.tool_calls ≠ [])
    (htools : ∀ name args, ∃ s, execute_tool run fs name args = Except.ok s) :
    ∀ (n : Nat) (msgs : List Message),
      review_loop chat run fs n msgs =
        (Except.ok "Error: Maximum iterations reached without completing review.", n) := by
  intro n
  induction n with
  | zero => intro msgs; rfl
  | succ n ih =>
    intro msgs
    obtain ⟨resp, hc, htc⟩ := hchat msgs
    obtain ⟨msgs2, hm⟩ :=
      run_tool_calls_ok run fs htools resp.tool_calls (msgs ++ [Message.assistant resp])
    simp only [review_loop, hc, if_neg htc, hm, ih msgs2]

/-- The loop never performs more chat calls than its fuel. -/
theorem review_loop_count_le (chat : ChatFn) (run : List String → RunResult)
    (fs : String → ReadResult) :
    ∀ (n : Nat) (msgs : List Message), (review_loop chat run fs n msgs).2 ≤ n := by
  intro n
  induction n with
  | zero => intro msgs; exact Nat.le_refl 0
  | succ n ih =>
    intro msgs
    cases hc : chat msgs with
    | error e => simp [review_loop, hc]
    | ok message =>
      by_cases htc : message.tool_calls = []
      · simp [review_loop, hc, htc]
      · cases hm : run_tool_calls run fs message.tool_calls
            (msgs ++ [Message.assistant message]) with
        | error e => simp [review_loop, hc, htc, hm]
        | ok msgs2 =>
          simp only [review_loop, hc, if_neg htc, hm]
          exact Nat.succ_le_succ (ih msgs2)

/-! ## Claims -/

/-- Claim C1, corrected.  Given a configured API key, a model that returns
at least one tool call on every round, and tool dispatches that all
complete without an uncaught exception, `run_agentic_review` performs
exactly `max_iterations` chat-completion rounds and returns the fixed
iteration-exceeded string; and for every environment whatsoever it never
performs more than `max_iterations` chat calls.  The tool proviso is
forced: see the counterexample, where a missing git binary makes a
`list_changed_files` dispatch raise out of the loop. -/
theorem C1_iteration_cap (env : Env) (d : String) (cf ff : Option (List String))
    (t : String)
    (hkey : env.api_key.isSome = true)
    (hchat : ∀ msgs, ∃ resp, env.chat msgs = Except.ok resp ∧ resp.tool_calls ≠ [])
    (htools : ∀ name args, ∃ s, execute_tool env.run env.fs name args = Except.ok s) :
    run_agentic_review_instr env d cf ff t =
      (Except.ok "Error: Maximum iterations reached without completing review.",
        env.max_iterations) ∧
    ∀ (env2 : Env) (d2 : String) (cf2 ff2 : Option (List String)) (t2 : String),
      (run_agentic_review_instr env2 d2 cf2 ff2 t2).2 ≤ env2.max_iterations := by
  constructor
  · cases hk : env.api_key with
    | none => rw [hk] at hkey; cases hkey
    | some k =>
      simp only [run_agentic_review_instr, hk]
      exact review_loop_all_tools env.chat env.run env.fs hchat htools
        env.max_iterations _
  · intro env2 d2 cf2 ff2 t2
    cases hk : env2.api_key with
    | none => simp [run_agentic_review_instr, hk]
    | some k =>
      simp only [run_agentic_review_instr, hk]
      exact review_loop_count_le env2.chat env2.run env2.fs env2.max_iterations _

/-- Witness for C1 at a concrete environment: two iterations of a model
that always requests an unknown tool end with the iteration-exceeded
string after exactly two chat calls. -/
theorem C1_witness :
    run_agentic_review_instr
      ⟨some "key", 2, fun _ => Except.ok ⟨none, [⟨"call_1", "frob", some []⟩]⟩,
        fun _ => RunResult.ok "", fun _ => ReadResult.notFound⟩
      "staged" none none "" =
      (Except.ok "Error: Maximum iterations reached without completing review.", 2) := by
  refine (C1_iteration_cap
    ⟨some "key", 2, fun _ => Except.ok ⟨none, [⟨"call_1", "frob", some []⟩]⟩,
      fun _ => RunResult.ok "", fun _ => ReadResult.notFound⟩
    "staged" none none "" rfl ?_ ?_).1
  · intro msgs
    exact ⟨⟨none, [⟨"call_1", "frob", some []⟩]⟩, rfl, by decide⟩
  · intro name args
    unfold execute_tool
    repeat (first | exact ⟨_, rfl⟩ | split)

/-- Counterexample to C1 as stated: with the git binary missing, a model
that requests `list_changed_files` on every round makes the run abort with
the propagated `FileNotFoundError` after a single chat call, instead of
reaching `max_iterations = 10` rounds and the fixed error string:
`get_changed_files` catches only `CalledProcessError` and the dispatch
loop wraps tool execution in no `try` at all. -/
theorem C1_counterexample :
    run_agentic_review_instr
      ⟨some "key", 10,
        fun _ => Except.ok
          ⟨some "checking", [⟨"call_1", "list_changed_files", some []⟩]⟩,
        fun _ => RunResult.fileNotFound "No such file or directory: git",
        fun _ => ReadResult.notFound⟩
      "staged" none none "" =
      (Except.error "No such file or directory: git", 1) ∧
    (Except.error "No such file or directory: git" : Except String String) ≠
      Except.ok "Error: Maximum iterations reached without completing review." := by
  exact ⟨rfl, fun h => Except.noConfusion h⟩

/-- Claim C2, corrected.  Given a configured API key and a positive
iteration cap, if the first response carries no tool calls the run
terminates after exactly one chat call; the text is returned verbatim
when it is non-empty, while an absent or empty text yields the fixed
placeholder, because the source falls back through Python `or`. -/
theorem C2_single_round (env : Env) (d : String) (cf ff : Option (List String))
    (t k : String) (m : Nat) (resp : ModelResponse)
    (hkey : env.api_key = some k)
    (hcap : env.max_iterations = m + 1)
    (hresp : env.chat (initial_messages env d cf ff t) = Except.ok resp)
    (htc : resp.tool_calls = []) :
    (∀ c, resp.content = some c → c ≠ "" →
      run_agentic_review_instr env d cf ff t = (Except.ok c, 1)) ∧
    (resp.content = none ∨ resp.content = some "" →
      run_agentic_review_instr env d cf ff t =
        (Except.ok "No review generated.", 1)) := by
  have hbase :
      run_agentic_review_instr env d cf ff t =
        (Except.ok (or_default resp.content), 1) := by
    simp only [run_agentic_review_instr, hkey, hcap, review_loop, hresp, if_pos htc]
  constructor
  · intro c hc hne
    rw [hbase, hc]
    simp [or_default, hne]
  · intro hc
    rcases hc with hc | hc <;> rw [hbase, hc] <;> simp [or_default]

/-- Witness for C2 at a concrete environment: a first response with
non-empty text and no tool calls is returned verbatim after one call. -/
theorem C2_witness :
    run_agentic_review_instr
      ⟨some "key", 10, fun _ => Except.ok ⟨some "Looks good.", []⟩,
        fun _ => RunResult.ok "", fun _ => ReadResult.notFound⟩
      "staged" none none "" = (Except.ok "Looks good.", 1) := by
  exact (C2_single_round _ "staged" none none "" "key" 9 ⟨some "Looks good.", []⟩
    rfl rfl rfl rfl).1 "Looks good." rfl (by decide)

/-- Counterexample to C2 as stated: a first response whose text is the
empty string and which carries no tool calls does not come back verbatim;
the source returns the placeholder because Python `or` treats the empty
string as falsy. -/
theorem C2_counterexample :
    run_agentic_review
      ⟨some "key", 10, fun _ => Except.ok ⟨some "", []⟩,
        fun _ => RunResult.ok "", fun _ => ReadResult.notFound⟩
      "staged" none none "" = Except.ok "No review generated." ∧
    ("No review generated." : String) ≠ "" := by
  exact ⟨rfl, by decide⟩

/-- Claim C3, corrected.  The empty path list yields the empty string for
every oracle (no subprocess can be consulted); a non-empty list yields the
per-path optional sections joined by blank lines, where a non-empty diff
gets the `# Diff for:` header and a non-zero exit gets the
`# No diff available for:` marker — but a successful diff with empty
output contributes no section at all, contradicting the claim that an
empty diff also produces the no-diff marker. -/
theorem C3_scoped_diff (run : List String → RunResult) (target : String)
    (files : List String) (f out e : String) (hne : files ≠ []) :
    (∀ (run2 : List String → RunResult) (t2 : String),
      get_scoped_diff run2 [] t2 = "") ∧
    get_scoped_diff run files target =
      String.intercalate "\n\n" (scoped_diff_sections_spec run target files) ∧
    (run (scoped_diff_args target (as_posix f)) = RunResult.ok out →
      pyStrip out = "" → get_scoped_diff run [f] target = "") ∧
    (run (scoped_diff_args target (as_posix f)) = RunResult.ok out →
      pyStrip out ≠ "" →
      get_scoped_diff run [f] target = "# Diff for: " ++ f ++ "\n" ++ out) ∧
    (run (scoped_diff_args target (as_posix f)) = RunResult.calledProcessError e →
      get_scoped_diff run [f] target = "# No diff available for: " ++ f) := by
  refine ⟨fun run2 t2 => rfl, ?_, ?_, ?_, ?_⟩
  · simp only [get_scoped_diff, if_neg hne, scoped_diff_sections_spec]
    rw [foldl_append_sections (scoped_diff_section run target) files []]
    simp
  · intro hrun hstrip
    have hsec : scoped_diff_section run target f = [] := by
      simp [scoped_diff_section, hrun, hstrip]
    simp [get_scoped_diff, hsec, intercalate_nil]
  · intro hrun hstrip
    have hsec : scoped_diff_section run target f =
        ["# Diff for: " ++ f ++ "\n" ++ out] := by
      simp [scoped_diff_section, hrun, bne_iff_ne, hstrip]
    simp [get_scoped_diff, hsec, intercalate_single]
  · intro hrun
    have hsec : scoped_diff_section run target f =
        ["# No diff available for: " ++ f] := by
      simp [scoped_diff_section, hrun]
    simp [get_scoped_diff, hsec, intercalate_single]

/-- Witness for C3 at a concrete oracle: a non-zero diff exit yields the
no-diff marker section. -/
theorem C3_witness :
    get_scoped_diff (fun _ => RunResult.calledProcessError "fatal")
      ["missing.txt"] "staged" = "# No diff available for: missing.txt" := by
  exact (C3_scoped_diff (fun _ => RunResult.calledProcessError "fatal") "staged"
    ["missing.txt"] "missing.txt" "" "fatal" (by decide)).2.2.2.2 rfl

/-- Counterexample to C3 as stated: a diff call that succeeds with empty
output produces no section, so the claimed `# No diff available for:`
marker for the empty-output case never appears and the result is the
empty string. -/
theorem C3_counterexample :
    get_scoped_diff (fun _ => RunResult.ok "") ["missing.txt"] "staged" = "" ∧
    ("" : String) ≠ "# No diff available for: missing.txt" := by
  exact ⟨rfl, by decide⟩

/-- Claim C4, code bug.  The exposed entry point passes the keyword
`working_dir` (server.py line 62), which names no parameter of
`run_agentic_review` (reviewer.py lines 406-411); Python keyword binding
therefore fails, so every invocation of `review_with_context` raises
`TypeError` instead of returning the review text. -/
theorem C4_keyword_mismatch :
    kwargs_accepted run_agentic_review_params review_with_context_call_keywords
      = false ∧
    "working_dir" ∈ review_with_context_call_keywords ∧
    "working_dir" ∉ run_agentic_review_params := by decide

/-- Claim C5, corrected.  Every name outside the three registered tools
and outside the backwards-compatibility name `read_file` dispatches to the
unknown-tool result string, raising nothing. -/
theorem C5_unknown_tool (run : List String → RunResult) (fs : String → ReadResult)
    (name : String) (args : Args)
    (hreg : name ∉ REVIEWER_TOOLS) (hlegacy : name ≠ "read_file") :
    execute_tool run fs name args = Except.ok ("Unknown tool: " ++ name) := by
  have h1 : name ≠ "get_uncommitted_changes" := by
    intro h; exact hreg (by rw [h]; decide)
  have h2 : name ≠ "read_files" := by
    intro h; exact hreg (by rw [h]; decide)
  have h3 : name ≠ "list_changed_files" := by
    intro h; exact hreg (by rw [h]; decide)
  simp only [execute_tool, if_neg h1, if_neg h2, if_neg hlegacy, if_neg h3]


/-- Witness for C5 at a concrete unregistered name. -/
theorem C5_witness :
    execute_tool (fun _ => RunResult.ok "") (fun _ => ReadResult.notFound)
      "frobnicate" [] = Except.ok ("Unknown tool: " ++ "frobnicate") :=
  C5_unknown_tool _ _ "frobnicate" [] (by decide) (by decide)

/-- Counterexample to C5 as stated: `read_file` is not one of the three
registered tools, yet dispatching it does not yield the unknown-tool
string — the source keeps a backwards-compatibility branch that reads the
single named file. -/
theorem C5_counterexample :
    ("read_file" ∉ REVIEWER_TOOLS) ∧
    execute_tool (fun _ => RunResult.ok "") (fun _ => ReadResult.notFound)
      "read_file" [("path", JVal.s "x")] =
      Except.ok "\n\n(Note: Context file \x27x\x27 not found)\n" ∧
    ("\n\n(Note: Context file \x27x\x27 not found)\n" : String) ≠
      "Unknown tool: read_file" := by
  exact ⟨by decide, rfl, by decide⟩

/-- Claim C6, corrected.  A missing artifact returns the placeholder note
with an empty scoped diff and a readable artifact always returns a pair,
for every version-control oracle; but an artifact read that fails with
anything other than `FileNotFoundError` propagates its exception, because
the source catches only that one class around the read. -/
theorem C6_artifact_processing (fs : String → ReadResult)
    (run : List String → RunResult) (filepath diff_target : String) :
    (fs filepath = ReadResult.notFound →
      process_artifact_with_links fs run filepath diff_target =
        Except.ok ("(Artifact not found: " ++ filepath ++ ")", "")) ∧
    (∀ content, fs filepath = ReadResult.ok content →
      ∃ pr, process_artifact_with_links fs run filepath diff_target =
        Except.ok pr) ∧
    (∀ e, fs filepath = ReadResult.error e →
      process_artifact_with_links fs run filepath diff_target =
        Except.error e) := by
  refine ⟨?_, ?_, ?_⟩
  · intro h
    simp only [process_artifact_with_links, h]
  · intro content h
    simp only [process_artifact_with_links, h]
    exact ⟨_, rfl⟩
  · intro e h
    simp only [process_artifact_with_links, h]

/-- Witness for C6 at a concrete missing artifact. -/
theorem C6_witness :
    process_artifact_with_links (fun _ => ReadResult.notFound)
      (fun _ => RunResult.ok "") "missing.md" "staged" =
      Except.ok ("(Artifact not found: " ++ "missing.md" ++ ")", "") :=
  (C6_artifact_processing _ _ "missing.md" "staged").1 rfl

/-- Counterexample to C6 as stated: a permission error on the artifact
itself propagates out of `process_artifact_with_links` as an exception,
so the operation is not total over all filesystem errors. -/
theorem C6_counterexample :
    process_artifact_with_links (fun _ => ReadResult.error "PermissionError: denied")
      (fun _ => RunResult.ok "") "walkthrough.md" "staged" =
      Except.error "PermissionError: denied" := rfl

/-- Claim C7, corrected.  The full-tree diff appends every configured
exclusion pattern as a negative path filter, but the per-path scoped diff
and the two changed-file name listings pass no exclusion filters at all
(the hypotheses only rule out the degenerate case of a path or target that
itself spells a negated pattern). -/
theorem C7_exclusions (target nf p : String) (hp : p ∈ EXCLUDE_PATTERNS)
    (hnf : nf ≠ ":!" ++ p) (ht : target ≠ ":!" ++ p) :
    (":!" ++ p) ∈ git_diff_args target ∧
    (":!" ++ p) ∉ scoped_diff_args target nf ∧
    (":!" ++ p) ∉ staged_name_only_args ∧
    (":!" ++ p) ∉ unstaged_name_only_args := by
  have hgit : (":!" ++ p) ≠ "git" := colon_bang_ne p "git" git_data_ne
  have hdiff : (":!" ++ p) ≠ "diff" := colon_bang_ne p "diff" diff_data_ne
  have hstaged : (":!" ++ p) ≠ "--staged" := colon_bang_ne p "--staged" staged_data_ne
  have hdashes : (":!" ++ p) ≠ "--" := colon_bang_ne p "--" dashes_data_ne
  have hno : (":!" ++ p) ≠ "--name-only" := colon_bang_ne p "--name-only" name_only_data_ne
  refine ⟨?_, ?_, ?_, ?_⟩
  · exact List.mem_append_right _ (mem_foldl_exclusions p EXCLUDE_PATTERNS _ hp)
  · unfold scoped_diff_args
    split
    · intro hmem
      simp only [List.mem_cons, List.mem_singleton, List.not_mem_nil, or_false] at hmem
      rcases hmem with h | h | h | h | h
      · exact hgit h
      · exact hdiff h
      · exact hstaged h
      · exact hdashes h
      · exact hnf h.symm
    · split
      · intro hmem
        simp only [List.mem_cons, List.mem_singleton, List.not_mem_nil, or_false] at hmem
        rcases hmem with h | h | h | h
        · exact hgit h
        · exact hdiff h
        · exact hdashes h
        · exact hnf h.symm
      · intro hmem
        simp only [List.mem_cons, List.mem_singleton, List.not_mem_nil, or_false] at hmem
        rcases hmem with h | h | h | h | h
        · exact hgit h
        · exact hdiff h
        · exact ht h.symm
        · exact hdashes h
        · exact hnf h.symm
  · intro hmem
    simp only [staged_name_only_args, List.mem_cons, List.mem_singleton,
      List.not_mem_nil, or_false] at hmem
    rcases hmem with h | h | h | h
    · exact hgit h
    · exact hdiff h
    · exact hstaged h
    · exact hno h
  · intro hmem
    simp only [unstaged_name_only_args, List.mem_cons, List.mem_singleton,
      List.not_mem_nil, or_false] at hmem
    rcases hmem with h | h | h
    · exact hgit h
    · exact hdiff h
    · exact hno h

/-- Witness for C7 at a concrete pattern, path and revision target. -/
theorem C7_witness :
    (":!" ++ "*.lock") ∈ git_diff_args "HEAD~1" ∧
    (":!" ++ "*.lock") ∉ scoped_diff_args "HEAD~1" "a.py" ∧
    (":!" ++ "*.lock") ∉ staged_name_only_args ∧
    (":!" ++ "*.lock") ∉ unstaged_name_only_args :=
  C7_exclusions "HEAD~1" "a.py" "*.lock" (by decide) (by decide) (by decide)

/-- Counterexample to C7 as stated: `*.lock` is a configured exclusion
pattern, yet the scoped-diff and name-listing argument vectors carry no
negated pattern for it. -/
theorem C7_counterexample :
    "*.lock" ∈ EXCLUDE_PATTERNS ∧
    ":!*.lock" ∉ scoped_diff_args "staged" "a.py" ∧
    ":!*.lock" ∉ staged_name_only_args := by decide

/-- Claim C8, corrected.  `parse_file_links` agrees with the
specification-side resolver: diff files are the decoded, normalized
render-directive paths, and read files are exactly the decoded, normalized
markdown-link paths not already among the diff files, in first-occurrence
order — but duplicate links are kept, not deduplicated.  The percent-decoding
example of the spec holds, including the exclusion of a link that repeats
a render-directive path. -/
theorem C8_link_resolution :
    (∀ content, parse_file_links content = parse_file_links_spec content) ∧
    parse_file_links "render_diffs(file:///a%20b.txt)" = (["/a b.txt"], []) ∧
    parse_file_links "render_diffs(file:///a%20b.txt) and [lbl](file:///a%20b.txt)" =
      (["/a b.txt"], []) := by
  refine ⟨?_, by decide, by decide⟩
  intro content
  unfold parse_file_links parse_file_links_spec
  dsimp only
  rw [read_files_fold_spec]
  simp

/-- Counterexample to C8 as stated: two markdown links to the same path
produce that path twice in `readFiles`; the source checks membership only
against `diffFiles`, never against `readFiles` itself, so there is no
deduplication by path. -/
theorem C8_counterexample :
    (parse_file_links "[a](file:///x.py) [b](file:///x.py)").2 =
      ["/x.py", "/x.py"] ∧
    (["/x.py", "/x.py"] : List String) ≠ ["/x.py"] := by
  exact ⟨by decide, by decide⟩

/-- Claim C9, confirmed.  The artifact-derived diff list is the union (in
order, concatenated) of the render-directive files of each readable
artifact; a non-empty focus list takes precedence over it whatever the
artifacts contain; with no (or an empty) focus list a non-empty
artifact-derived list is used; and with neither, no file selection is made
and no diff is pre-computed, deferring to the model tools. -/
theorem C9_file_selection (fs : String → ReadResult) (run : List String → RunResult)
    (diff_target : String) (artifacts : List String) :
    (load_artifacts fs run diff_target artifacts).2 =
      artifact_diff_union fs artifacts ∧
    (∀ focus : List String, focus ≠ [] →
      files_to_diff (some focus)
        (load_artifacts fs run diff_target artifacts).2 = some focus) ∧
    (∀ all : List String, all ≠ [] →
      files_to_diff none all = some all ∧ files_to_diff (some []) all = some all) ∧
    (files_to_diff none [] = none ∧ files_to_diff (some []) [] = none ∧
      ∀ t2, precomputed_diff run none t2 = "") := by
  refine ⟨?_, ?_, ?_, ?_, ?_, ?_⟩
  · induction artifacts with
    | nil => rfl
    | cons artifact rest ih =>
      cases hfs : fs artifact with
      | ok content =>
        cases hpr : process_artifact_with_links fs run artifact diff_target with
        | ok pr =>
          simp only [load_artifacts, artifact_diff_union, hfs, hpr, ih]
        | error e =>
          simp only [load_artifacts, artifact_diff_union, hfs, hpr, ih]
      | notFound =>
        simp only [load_artifacts, artifact_diff_union, hfs, ih, List.nil_append]
      | error e =>
        simp only [load_artifacts, artifact_diff_union, hfs, ih, List.nil_append]
  · intro focus hfocus
    simp [files_to_diff, hfocus]
  · intro all hall
    constructor <;> simp [files_to_diff, hall]
  · rfl
  · rfl
  · intro t2; rfl

/-- Witness for C9 at a concrete environment whose walkthrough artifact
names a different diff-directive file than the focus list: the focus list
wins. -/
theorem C9_witness :
    files_to_diff (some ["a.py", "b.py"])
      (load_artifacts
        (fun a => if a = "walkthrough.md" then
            ReadResult.ok "render_diffs(file:///c.py)" else ReadResult.notFound)
        (fun _ => RunResult.ok "") "staged" default_artifacts).2 =
      some ["a.py", "b.py"] := by
  exact (C9_file_selection
    (fun a => if a = "walkthrough.md" then
        ReadResult.ok "render_diffs(file:///c.py)" else ReadResult.notFound)
    (fun _ => RunResult.ok "") "staged" default_artifacts).2.1
    ["a.py", "b.py"] (by decide)

/-- Claim C10, corrected.  On success of both name listings the result is
the deduplicated union of their stripped, newline-split names with empty
names filtered out, characterized by membership; a non-zero exit of either
listing yields the empty list rather than an error; but only
`CalledProcessError` is caught, so a missing git binary (or any other
exception) propagates, contrary to the claim of an empty collection on
any failure. -/
theorem C10_changed_files (run : List String → RunResult)
    (staged_out unstaged_out : String)
    (h1 : run staged_name_only_args = RunResult.ok staged_out)
    (h2 : run unstaged_name_only_args = RunResult.ok unstaged_out) :
    get_changed_files run = Except.ok
      (((strip_split_lines staged_out ++ strip_split_lines unstaged_out).dedup).filter
        (fun f => f != "")) ∧
    (∀ x, x ∈ ((strip_split_lines staged_out ++ strip_split_lines unstaged_out).dedup).filter
        (fun f => f != "") ↔
      ((x ∈ strip_split_lines staged_out ∨ x ∈ strip_split_lines unstaged_out) ∧
        x ≠ "")) ∧
    (∀ (run2 : List String → RunResult) e,
      run2 staged_name_only_args = RunResult.calledProcessError e →
      get_changed_files run2 = Except.ok []) ∧
    (∀ (run2 : List String → RunResult) so e,
      run2 staged_name_only_args = RunResult.ok so →
      run2 unstaged_name_only_args = RunResult.calledProcessError e →
      get_changed_files run2 = Except.ok []) := by
  refine ⟨?_, ?_, ?_, ?_⟩
  · simp only [get_changed_files, h1, h2]
  · intro x
    simp [List.mem_filter, List.mem_dedup, List.mem_append, bne_iff_ne]
  · intro run2 e h
    simp only [get_changed_files, h]
  · intro run2 so e hso hu
    simp only [get_changed_files, hso, hu]

/-- Witness for C10 at concrete listings: the union of staged and
unstaged names, deduplicated and with the empty trailing split removed. -/
theorem C10_witness :
    get_changed_files
      (fun args => if args = staged_name_only_args then RunResult.ok "a.py\nb.py"
        else RunResult.ok "b.py") = Except.ok ["a.py", "b.py"] := by
  rw [(C10_changed_files
    (fun args => if args = staged_name_only_args then RunResult.ok "a.py\nb.py"
      else RunResult.ok "b.py") "a.py\nb.py" "b.py" rfl rfl).1]
  rfl

/-- Counterexample to C10 as stated: a missing git binary raises
`FileNotFoundError` inside `get_changed_files` and the exception
propagates; the function does not return an empty collection on this
failure of the underlying version-control query. -/
theorem C10_counterexample :
    get_changed_files (fun _ => RunResult.fileNotFound "No such file or directory") =
      Except.error "No such file or directory" := rfl

end Review
